import Mathlib

/-!
Shallow embedding of the `assert` Go test-assertion library.

Go runtime values are modelled by the inductive `GoVal`; each constructor
carries the Go type information that `reflect` would report at runtime.
The host test sink (`testing.TB`) is modelled as the list of messages the
primitive passes to `t.Error` / `t.Errorf` during one call, so each
assertion primitive becomes a pure function from its inputs to that list.
-/

namespace Assert

/-- A Go floating-point value (float64, or one component of a complex128):
a NaN bit pattern, a signed infinity, or a finite value — every finite
double is a rational number, carried exactly. -/
inductive FloatV : Type where
  | nan : FloatV
  | inf : Bool → FloatV
  | fin : Rat → FloatV
deriving DecidableEq

def FloatV.isNaN : FloatV → Bool
  | .nan => true
  | _ => false

/-- IEEE equality, as Go's == on float64 and as reflect.DeepEqual's
float case (v1.Float() == v2.Float()): false whenever either operand is
NaN, signed infinities compare by sign, finite values numerically. -/
def floatEq : FloatV → FloatV → Bool
  | .nan, _ => false
  | _, .nan => false
  | .inf b1, .inf b2 => b1 == b2
  | .fin q1, .fin q2 => q1 == q2
  | _, _ => false

mutual

inductive GoVal : Type where
  | nilV : GoVal
  | intV : Int → GoVal
  | floatV : FloatV → GoVal
  | complexV : FloatV → FloatV → GoVal
  | boolV : Bool → GoVal
  | stringV : String → GoVal
  | sliceV : String → Option GoValList → GoVal
  | arrayV : String → GoValList → GoVal
  | mapV : String → String → Option GoEntries → GoVal
  | ptrV : String → Option GoVal → GoVal
  | funcV : String → Bool → GoVal
  | chanV : String → Bool → GoVal
  | structV : String → GoEntries → GoVal

inductive GoValList : Type where
  | nil : GoValList
  | cons : GoVal → GoValList → GoValList

inductive GoEntries : Type where
  | nil : GoEntries
  | cons : String → GoVal → GoEntries → GoEntries

end

def GoValList.length : GoValList → Nat
  | .nil => 0
  | .cons _ tl => tl.length + 1

def GoEntries.length : GoEntries → Nat
  | .nil => 0
  | .cons _ _ tl => tl.length + 1

mutual

/-- Model of reflect.DeepEqual on the modelled value universe: values of different
dynamic types are never equal; slices/arrays compare elementwise in order;
maps compare by length plus per-key lookup irrespective of entry order;
nil and empty collections are distinct; non-nil func values are never
deeply equal (only two nil funcs are). -/
def deepEqual : GoVal → GoVal → Bool
  | .nilV, .nilV => true
  | .intV a, .intV b => a == b
  | .floatV a, .floatV b => floatEq a b
  | .complexV r1 i1, .complexV r2 i2 => floatEq r1 r2 && floatEq i1 i2
  | .boolV a, .boolV b => a == b
  | .stringV a, .stringV b => a == b
  | .sliceV t1 none, .sliceV t2 none => t1 == t2
  | .sliceV t1 (some xs), .sliceV t2 (some ys) => t1 == t2 && deepEqualList xs ys
  | .arrayV t1 xs, .arrayV t2 ys => t1 == t2 && deepEqualList xs ys
  | .mapV k1 w1 none, .mapV k2 w2 none => k1 == k2 && w1 == w2
  | .mapV k1 w1 (some es1), .mapV k2 w2 (some es2) =>
      k1 == k2 && w1 == w2 && es1.length == es2.length && entriesSubset es1 es2
  | .ptrV t1 none, .ptrV t2 none => t1 == t2
  | .ptrV t1 (some a), .ptrV t2 (some b) => t1 == t2 && deepEqual a b
  | .funcV t1 n1, .funcV t2 n2 => t1 == t2 && n1 && n2
  | .chanV t1 n1, .chanV t2 n2 => t1 == t2 && n1 == n2
  | .structV n1 fs1, .structV n2 fs2 => n1 == n2 && deepEqualEntries fs1 fs2
  | _, _ => false
termination_by a _b => (sizeOf a, 0)

def deepEqualList : GoValList → GoValList → Bool
  | .nil, .nil => true
  | .cons x xs, .cons y ys => deepEqual x y && deepEqualList xs ys
  | _, _ => false
termination_by xs _ys => (sizeOf xs, 0)

def deepEqualEntries : GoEntries → GoEntries → Bool
  | .nil, .nil => true
  | .cons k1 v1 t1, .cons k2 v2 t2 => k1 == k2 && deepEqual v1 v2 && deepEqualEntries t1 t2
  | _, _ => false
termination_by es _fs => (sizeOf es, 0)

def entriesSubset : GoEntries → GoEntries → Bool
  | .nil, _ => true
  | .cons k v tl, es2 => entriesHasMatch k v es2 && entriesSubset tl es2
termination_by es1 _es2 => (sizeOf es1, 0)

def entriesHasMatch : String → GoVal → GoEntries → Bool
  | _, _, .nil => false
  | k, v, .cons k2 v2 tl => (k == k2 && deepEqual v v2) || entriesHasMatch k v tl
termination_by _k v es2 => (sizeOf v, sizeOf es2)

end

/-- Model of isNil from helpers.go: the literal nil interface is nil; chan, func,
map, pointer, interface and slice kinds are nil exactly when their runtime
state is the zero form; every other kind is never nil. -/
def isNil : GoVal → Bool
  | .nilV => true
  | .chanV _ n => n
  | .funcV _ n => n
  | .mapV _ _ es => es.isNone
  | .ptrV _ v => v.isNone
  | .sliceV _ xs => xs.isNone
  | _ => false

/-- Model of isEqual from helpers.go, a thin wrapper over `reflect.DeepEqual`. -/
def isEqual (x y : GoVal) : Bool := deepEqual x y

/-- The `%v` rendering of `reflect.TypeOf(x)`: the Go type name of the
dynamic value, or `<nil>` for the nil interface (whose `reflect.Type` is
nil). -/
def typeName : GoVal → String
  | .nilV => "<nil>"
  | .intV _ => "int"
  | .floatV _ => "float64"
  | .complexV _ _ => "complex128"
  | .boolV _ => "bool"
  | .stringV _ => "string"
  | .sliceV t _ => "[]" ++ t
  | .arrayV t xs => "[" ++ toString xs.length ++ "]" ++ t
  | .mapV kt vt _ => "map[" ++ kt ++ "]" ++ vt
  | .ptrV t _ => "*" ++ t
  | .funcV t _ => t
  | .chanV t _ => "chan " ++ t
  | .structV n _ => n

def escChar (c : Char) : String :=
  if c = '"' then "\\\""
  else if c = '\\' then "\\\\"
  else if c = '\n' then "\\n"
  else if c = '\t' then "\\t"
  else c.toString

/-- The fmt rendering of a float64 value: NaN, signed infinities, or the
decimal of the finite value (the exact decimal formatting of the stdlib
is abstracted by the rational's canonical rendering). -/
def renderFloat : FloatV → String
  | .nan => "NaN"
  | .inf true => "-Inf"
  | .inf false => "+Inf"
  | .fin q => toString q

/-- Model of the %q-style double-quoted rendering of a Go string. -/
def goQuote (s : String) : String :=
  "\"" ++ String.join (s.data.map escChar) ++ "\""

mutual

/-- The `%#v` (Go-syntax) rendering used by `failCompare`: composite
values print with their type followed by brace-enclosed elements, nil
collections print as `T(nil)`, strings are double-quoted. Machine
addresses (inside pointers and funcs) are abstracted. -/
def render : GoVal → String
  | .nilV => "<nil>"
  | .intV n => toString n
  | .floatV f => renderFloat f
  | .complexV re im => "(" ++ renderFloat re ++ "+" ++ renderFloat im ++ "i)"
  | .boolV b => if b then "true" else "false"
  | .stringV s => goQuote s
  | .sliceV t none => "[]" ++ t ++ "(nil)"
  | .sliceV t (some xs) => "[]" ++ t ++ "\x7b" ++ renderList xs ++ "\x7d"
  | .arrayV t xs => "[" ++ toString xs.length ++ "]" ++ t ++ "\x7b" ++ renderList xs ++ "\x7d"
  | .mapV kt vt none => "map[" ++ kt ++ "]" ++ vt ++ "(nil)"
  | .mapV kt vt (some es) => "map[" ++ kt ++ "]" ++ vt ++ "\x7b" ++ renderMapEntries es ++ "\x7d"
  | .ptrV t none => "(*" ++ t ++ ")(nil)"
  | .ptrV _ (some v) => "&" ++ render v
  | .funcV t true => "(" ++ t ++ ")(nil)"
  | .funcV t false => "(" ++ t ++ ")"
  | .chanV t true => "(chan " ++ t ++ ")(nil)"
  | .chanV t false => "(chan " ++ t ++ ")"
  | .structV n fs => n ++ "\x7b" ++ renderFields fs ++ "\x7d"

def renderList : GoValList → String
  | .nil => ""
  | .cons x .nil => render x
  | .cons x tl => render x ++ ", " ++ renderList tl

def renderMapEntries : GoEntries → String
  | .nil => ""
  | .cons k v .nil => goQuote k ++ ":" ++ render v
  | .cons k v tl => goQuote k ++ ":" ++ render v ++ ", " ++ renderMapEntries tl

def renderFields : GoEntries → String
  | .nil => ""
  | .cons k v .nil => k ++ ":" ++ render v
  | .cons k v tl => k ++ ":" ++ render v ++ ", " ++ renderFields tl

end

/-- The `len(msg) > 0 && msg[0] != ""` guard of `failCompare`. -/
def msgProvided : List String → Bool
  | [] => false
  | m :: _ => m != ""

/-- Model of failCompare from helpers.go: builds the failure diagnostic passed to
`t.Error`. Writes an optional `Message:` line, then the `Expected:` line
showing the rendered `expected` parameter with the type of the `actual`
parameter, then the `Actual:` line showing the rendered `actual` parameter
with the type of the `expected` parameter (the source's cross-wired type
labels). -/
def failCompare (actual expected : GoVal) (msg : List String) : String :=
  let part1 := if msgProvided msg then "\n Message: " ++ msg.headD "" else ""
  let part2 := part1 ++ ("\nExpected: (" ++ typeName actual ++ ") " ++ render expected ++ "\n")
  part2 ++ ("  Actual: (" ++ typeName expected ++ ") " ++ render actual ++ "\n")

/-- Model of compare from helpers.go: reports through `failCompare` when
`isEqual(expected, actual)` fails, passing `(expected, actual)` into
`failCompare`'s `(actual, expected)` slots as the source does. -/
def compareRun (actual expected : GoVal) (msg : List String) : List String :=
  if !(isEqual expected actual) then [failCompare expected actual msg] else []

/-- Model of Equals from assert.go: calls `compare(t, expected, actual, msg...)`,
swapping its own argument order into `compare`. -/
def EqualsRun (actual expected : GoVal) (msg : List String) : List String :=
  compareRun expected actual msg

/-- A non-nil Go `error` value: `id` models the pointer identity of the
underlying `*errors.errorString`, `msg` its message text. Two errors with
the same message but different identities are distinct interface values. -/
structure ErrV where
  id : Nat
  msg : String
deriving DecidableEq

/-- The dynamic `GoVal` an `error` interface value carries: nil, or a
pointer to an `errors.errorString` record. -/
def errToVal : Option ErrV → GoVal
  | none => .nilV
  | some e => .ptrV "errors.errorString" (some (.structV "errors.errorString" (.cons "s" (.stringV e.msg) .nil)))

/-- Model of Error from assert.go, translated statement by statement: three
sequential `if`s with no early return, each calling `failCompare` when its
condition holds; the sink receives the concatenation of all reports. -/
def ErrorRun (actual expected : Option ErrV) : List String :=
  let r1 := if actual.isNone && expected.isSome then
    [failCompare (errToVal expected) (errToVal actual) ["expected error but got nil"]] else []
  let r2 := if actual.isSome && expected.isNone then
    [failCompare (errToVal expected) (errToVal actual) ["expected nil error"]] else []
  let r3 := if actual ≠ expected then
    [failCompare (errToVal expected) (errToVal actual) []] else []
  r1 ++ r2 ++ r3

/-- Model of Nil from assert.go: fails via `failCompare(t, value, nil)` when the
value is not nil. -/
def NilRun (value : GoVal) : List String :=
  if !(isNil value) then [failCompare value .nilV []] else []

/-- Model of NotNil from assert.go: on a nil value writes its message to the sink
directly through `t.Error`, bypassing `failCompare`. -/
def NotNilRun (value : GoVal) : List String :=
  if isNil value then ["\nexpected value to not be nil"] else []

/-- Model of Panics from assert.go. The argument function is modelled by the
outcome of calling it: `none` when it returns normally, `some s` when it
panics with a payload whose `fmt.Sprint` rendering is `s` (the deferred
`recover` inspects that payload once and re-establishes normal control
flow). A mismatching payload reports through `failCompare`; a normal
return reports directly through `t.Errorf`. -/
def PanicsRun (fn : Option String) (expectedMsg : String) : List String :=
  match fn with
  | some actualMsg =>
    if actualMsg != expectedMsg then
      [failCompare (.stringV expectedMsg) (.stringV actualMsg) ["unexpected panic message"]]
    else []
  | none => ["\nExpected panic: " ++ expectedMsg ++ "\n  Actual: no panic"]

/-- Model of True from assert.go: fails via `failCompare(t, true, value, msg...)`
when the value is false. -/
def TrueRun (value : Bool) (msg : List String) : List String :=
  if !value then [failCompare (.boolV true) (.boolV value) msg] else []

/-- Model of False from assert.go: fails via `failCompare(t, false, value, msg...)`
when the value is true. -/
def FalseRun (value : Bool) (msg : List String) : List String :=
  if value then [failCompare (.boolV false) (.boolV value) msg] else []

/-- The kinds accepted by `Empty` and `Len`: slice, array, map, string. -/
def lenSupported : GoVal → Bool
  | .sliceV _ _ => true
  | .arrayV _ _ => true
  | .mapV _ _ _ => true
  | .stringV _ => true
  | _ => false

/-- Model of reflect.Value.Len on the supported kinds: element count for slices,
arrays and maps (0 for the nil forms), byte length for strings. -/
def goLen : GoVal → Nat
  | .sliceV _ none => 0
  | .sliceV _ (some xs) => xs.length
  | .arrayV _ xs => xs.length
  | .mapV _ _ none => 0
  | .mapV _ _ (some es) => es.length
  | .stringV s => s.utf8ByteSize
  | _ => 0

/-- Modelled from the spec: the `location()` helper used by `Empty` and
`Len` is not in the repository sources; per the spec it annotates the
caller's source position. It is modelled as an arbitrary location string
passed in by the host. -/
def usageError (loc what : String) : String := "\n" ++ loc ++ what

/-- Model of Empty from collection.go: on supported kinds compares the runtime
length against 0 and reports via `failCompare` (with the source's
"empty colleciton" literal); any other kind reports a usage error
directly through `t.Errorf`, naming the unsupported type. -/
def EmptyRun (collection : GoVal) (loc : String) (msg : List String) : List String :=
  if lenSupported collection then
    if goLen collection != 0 then
      [failCompare (.stringV "empty colleciton")
        (.stringV ("collection with length " ++ toString (goLen collection))) msg]
    else []
  else [usageError loc ("\nEmpty called with unsupported type: " ++ typeName collection)]

/-- Model of Len from collection.go: on supported kinds compares the runtime
length against `expected` and reports via
`failCompare(t, expected, v.Len(), "unexpected length")`; any other kind
reports a usage error directly through `t.Errorf`. -/
def LenRun (collection : GoVal) (expected : Int) (loc : String) : List String :=
  if lenSupported collection then
    if (goLen collection : Int) != expected then
      [failCompare (.intV expected) (.intV (goLen collection)) ["unexpected length"]]
    else []
  else [usageError loc ("\nLen called with unsupported type: " ++ typeName collection)]

/-- The external `regexp` package at the interface `MatchRegexp` uses:
compiling a pattern either fails with an error text (independent of the
subject string) or succeeds and yields a match predicate. -/
structure RegexpEngine where
  compileErr : String → Option String
  matchesP : String → String → Bool

/-- Model of regexp.MatchString(pattern, s): `(false, err)` on compile error,
`(matched, nil)` otherwise. -/
def matchString (eng : RegexpEngine) (pattern s : String) : Bool × Option String :=
  match eng.compileErr pattern with
  | some e => (false, some e)
  | none => (eng.matchesP pattern s, none)

/-- Model of MatchRegexp from collection.go: a compile error reports through
`failCompare` with `"invalid regexp: <err>"` prepended to the custom
messages and returns; otherwise a non-match reports the should-match
failure. -/
def MatchRegexpRun (eng : RegexpEngine) (s pattern : String) (msg : List String) : List String :=
  match matchString eng pattern s with
  | (_, some err) =>
    [failCompare (.stringV pattern) (.stringV "valid regexp pattern")
      (("invalid regexp: " ++ err) :: msg)]
  | (matched, none) =>
    if !matched then
      [failCompare (.stringV s) (.stringV ("should match pattern " ++ goQuote pattern)) msg]
    else []

mutual

/-- The plain %v rendering of fmt for the modelled values: strings print
raw, slices and arrays bracketed with space-separated elements, maps as
map[k:v ...], structs as brace-enclosed space-separated field values,
nil reference values as their empty or nil forms; machine addresses
(non-nil funcs and channels, pointers to non-struct values) are
abstracted. -/
def sprintV : GoVal → String
  | .nilV => "<nil>"
  | .intV n => toString n
  | .floatV f => renderFloat f
  | .complexV re im => "(" ++ renderFloat re ++ "+" ++ renderFloat im ++ "i)"
  | .boolV b => if b then "true" else "false"
  | .stringV s => s
  | .sliceV _ none => "[]"
  | .sliceV _ (some xs) => "[" ++ sprintVList xs ++ "]"
  | .arrayV _ xs => "[" ++ sprintVList xs ++ "]"
  | .mapV _ _ none => "map[]"
  | .mapV _ _ (some es) => "map[" ++ sprintVEntries es ++ "]"
  | .ptrV _ none => "<nil>"
  | .ptrV _ (some v) => "&" ++ sprintV v
  | .funcV _ _ => "(func)"
  | .chanV _ _ => "(chan)"
  | .structV _ fs => "\x7b" ++ sprintVFields fs ++ "\x7d"

def sprintVList : GoValList → String
  | .nil => ""
  | .cons x .nil => sprintV x
  | .cons x tl => sprintV x ++ " " ++ sprintVList tl

def sprintVEntries : GoEntries → String
  | .nil => ""
  | .cons k v .nil => k ++ ":" ++ sprintV v
  | .cons k v tl => k ++ ":" ++ sprintV v ++ " " ++ sprintVEntries tl

def sprintVFields : GoEntries → String
  | .nil => ""
  | .cons _ v .nil => sprintV v
  | .cons _ v tl => sprintV v ++ " " ++ sprintVFields tl

end

/-- Model of NotEquals from assert.go: when the two values are deeply
equal, reports via failCompare(t, "values to be different",
"both values are equal: <%v of actual>", msg...). -/
def NotEqualsRun (actual expected : GoVal) (msg : List String) : List String :=
  if isEqual actual expected then
    [failCompare (.stringV "values to be different")
      (.stringV ("both values are equal: " ++ sprintV actual)) msg]
  else []

/-- The linear scan shared by Contains and NotContains: some element of
the slice is deeply equal to the element. -/
def containsElem : GoValList → GoVal → Bool
  | .nil, _ => false
  | .cons v tl, e => isEqual v e || containsElem tl e

/-- Model of Contains from collection.go: scans the slice for a deep
match, returning on the first hit; with no hit reports
failCompare[any](t, element, slice, "slice does not contain expected
element"). -/
def ContainsRun (elemTy : String) (slice : Option GoValList) (element : GoVal) : List String :=
  if containsElem (slice.getD .nil) element then []
  else [failCompare element (.sliceV elemTy slice) ["slice does not contain expected element"]]

/-- Model of NotContains from collection.go: on the first deep match
reports failCompare[any](t, slice, "should not contain <%v>", msg...)
and returns; reports nothing when no element matches. -/
def NotContainsRun (elemTy : String) (slice : Option GoValList) (element : GoVal)
    (msg : List String) : List String :=
  if containsElem (slice.getD .nil) element then
    [failCompare (.sliceV elemTy slice) (.stringV ("should not contain " ++ sprintV element)) msg]
  else []

/-- Go map key lookup success, specialised to the modelled string keys. -/
def hasKeyB : GoEntries → String → Bool
  | .nil, _ => false
  | .cons k2 _ tl, k => k == k2 || hasKeyB tl k

/-- Model of HasKey from collection.go: when the key is absent reports
failCompare[any](t, key, m, "map does not contain expected key"). -/
def HasKeyRun (kt vt : String) (m : Option GoEntries) (key : String) : List String :=
  if hasKeyB (m.getD .nil) key then []
  else [failCompare (.stringV key) (.mapV kt vt m) ["map does not contain expected key"]]

/-- Model of HasPrefix from collection.go: when the string does not
start with the prefix, reports failCompare(t, s,
"should start with <%q>", msg...). -/
def HasPrefixRun (s p : String) (msg : List String) : List String :=
  if s.startsWith p then []
  else [failCompare (.stringV s) (.stringV ("should start with " ++ goQuote p)) msg]

/-- Model of HasSuffix from collection.go: when the string does not end
with the suffix, reports failCompare(t, s, "should end with <%q>",
msg...). -/
def HasSuffixRun (s suf : String) (msg : List String) : List String :=
  if s.endsWith suf then []
  else [failCompare (.stringV s) (.stringV ("should end with " ++ goQuote suf)) msg]

/-- Does the first character list start with the second? -/
def chStarts : List Char → List Char → Bool
  | _, [] => true
  | [], _ :: _ => false
  | c :: cs, d :: ds => c == d && chStarts cs ds

/-- Model of strings.Contains: the second list occurs contiguously in
the first. -/
def chHasSub : List Char → List Char → Bool
  | [], sub => sub.isEmpty
  | c :: tl, sub => chStarts (c :: tl) sub || chHasSub tl sub

/-- Model of StringContains from collection.go: when the substring does
not occur, reports failCompare(t, substr, s, "string does not contain
expected substring"). -/
def StringContainsRun (s substr : String) : List String :=
  if chHasSub s.data substr.data then []
  else [failCompare (.stringV substr) (.stringV s) ["string does not contain expected substring"]]

/-- Model of Between from constraints.go, generic over the Ordered value
kinds (numbers and strings) as a linear order equipped with its Go-value
view and its %v rendering: fails iff the value lies outside the
inclusive range, reporting failCompare[any](t, "Between <min> and
<max>", actual, "value not within expected range"). -/
def BetweenRun {A : Type} [LinearOrder A] (goOf : A → GoVal) (sp : A → String)
    (actual mn mx : A) : List String :=
  if actual < mn ∨ actual > mx then
    [failCompare (.stringV ("Between " ++ sp mn ++ " and " ++ sp mx)) (goOf actual)
      ["value not within expected range"]]
  else []

/-- Model of Greater from constraints.go: fails iff actual <= min,
reporting failCompare[any](t, "> <min>", actual, "value not greater
than minimum"). -/
def GreaterRun {A : Type} [LinearOrder A] (goOf : A → GoVal) (sp : A → String)
    (actual mn : A) : List String :=
  if actual ≤ mn then
    [failCompare (.stringV ("> " ++ sp mn)) (goOf actual) ["value not greater than minimum"]]
  else []

/-- Model of GreaterOrEqual from constraints.go: fails iff actual < min,
reporting failCompare[any](t, actual, ">= <min>", msg...). -/
def GreaterOrEqualRun {A : Type} [LinearOrder A] (goOf : A → GoVal) (sp : A → String)
    (actual mn : A) (msg : List String) : List String :=
  if actual < mn then
    [failCompare (goOf actual) (.stringV (">= " ++ sp mn)) msg]
  else []

/-- Model of LessOrEqual from constraints.go: fails iff actual > max,
reporting failCompare[any](t, actual, "<= <max>", msg...). -/
def LessOrEqualRun {A : Type} [LinearOrder A] (goOf : A → GoVal) (sp : A → String)
    (actual mx : A) (msg : List String) : List String :=
  if actual > mx then
    [failCompare (goOf actual) (.stringV ("<= " ++ sp mx)) msg]
  else []

/-- The %v rendering of an error interface value: its Error() message
text, or <nil> for the nil error. -/
def sprintErr : Option ErrV → String
  | none => "<nil>"
  | some e => e.msg

/-- Model of ErrorIs from assert.go at the errors.Is interface: the
stdlib's wrap-chain walk is external and passed in as a predicate; a
negative outcome reports failCompare[any](t, err, "error chain
containing <%v of target>", msg...). -/
def ErrorIsRun (errorsIs : Option ErrV → Option ErrV → Bool)
    (err target : Option ErrV) (msg : List String) : List String :=
  if !(errorsIs err target) then
    [failCompare (errToVal err) (.stringV ("error chain containing " ++ sprintErr target)) msg]
  else []

/-- Model of ErrorAs from assert.go at the errors.As interface: the
stdlib's chain-walk-and-assign is external and passed in as its boolean
outcome together with the %T name of the target slot; a negative outcome
reports failCompare[any](t, err, "error matching type <%T>", msg...). -/
def ErrorAsRun (errorsAs : Bool) (err : Option ErrV) (targetTy : String)
    (msg : List String) : List String :=
  if !errorsAs then
    [failCompare (errToVal err) (.stringV ("error matching type " ++ targetTy)) msg]
  else []

mutual

/-- Values on which Go equality is reflexive: no non-nil function
handles anywhere inside (Go function values are not comparable, and
`reflect.DeepEqual` never equates two non-nil funcs) and no NaN
floating-point components (on which IEEE equality is irreflexive). -/
def deepComparable : GoVal → Bool
  | .funcV _ n => n
  | .floatV f => !f.isNaN
  | .complexV re im => !re.isNaN && !im.isNaN
  | .sliceV _ none => true
  | .sliceV _ (some xs) => deepComparableList xs
  | .arrayV _ xs => deepComparableList xs
  | .mapV _ _ none => true
  | .mapV _ _ (some es) => deepComparableEntries es
  | .ptrV _ none => true
  | .ptrV _ (some v) => deepComparable v
  | .structV _ fs => deepComparableEntries fs
  | _ => true

def deepComparableList : GoValList → Bool
  | .nil => true
  | .cons x tl => deepComparable x && deepComparableList tl

def deepComparableEntries : GoEntries → Bool
  | .nil => true
  | .cons _ v tl => deepComparable v && deepComparableEntries tl

end

/-- Membership of the entry (k, v) in the map representation. -/
def inEntries (k : String) (v : GoVal) : GoEntries → Prop
  | .nil => False
  | .cons k2 v2 tl => (k = k2 ∧ v = v2) ∨ inEntries k v tl

/-- The last character of a sink message. Every `failCompare`-built
message ends with a newline; the messages the primitives write directly
to the sink never do, which separates the two report families. -/
def lastChar (s : String) : Option Char := s.data.getLast?

/-- A sink message produced by the shared failure-formatting routine. -/
def viaSharedFormatter (r : String) : Prop :=
  ∃ x y ms, r = failCompare x y ms

theorem lastChar_append (s t : String) :
    lastChar (s ++ t) = if t.data.isEmpty then lastChar s else lastChar t := by
  unfold lastChar
  rw [String.data_append]
  cases h : t.data with
  | nil => simp [h]
  | cons c tl =>
    simp only [List.isEmpty_cons, if_false]
    exact List.getLast?_append_of_ne_nil _ (h ▸ List.cons_ne_nil c tl)

theorem lastChar_append_newline (s : String) : lastChar (s ++ "\n") = some '\n' := by
  rw [lastChar_append]
  rfl

theorem failCompare_lastChar (a e : GoVal) (m : List String) :
    lastChar (failCompare a e m) = some '\n' := by
  unfold failCompare
  have h1 : ("\nExpected: (" ++ typeName a ++ ") " ++ render e ++ "\n").data.isEmpty = false := by
    rw [show "\nExpected: (" ++ typeName a ++ ") " ++ render e ++ "\n" =
      ("\nExpected: (" ++ typeName a ++ ") " ++ render e) ++ "\n" from rfl]
    rw [String.data_append]
    simp
  have h2 : ("  Actual: (" ++ typeName e ++ ") " ++ render a ++ "\n").data.isEmpty = false := by
    rw [show "  Actual: (" ++ typeName e ++ ") " ++ render a ++ "\n" =
      ("  Actual: (" ++ typeName e ++ ") " ++ render a) ++ "\n" from rfl]
    rw [String.data_append]
    simp
  rw [lastChar_append, h2, if_neg (by simp)]
  exact lastChar_append_newline _

/-- A message whose last character is not a newline was not produced by
`failCompare`. -/
theorem not_failCompare_of_lastChar (r : String) (h : lastChar r ≠ some '\n')
    (a e : GoVal) (m : List String) : failCompare a e m ≠ r := by
  intro heq
  exact h (heq ▸ failCompare_lastChar a e m)

theorem entriesHasMatch_of_in : ∀ (k : String) (v : GoVal) (es : GoEntries),
    inEntries k v es → deepEqual v v = true → entriesHasMatch k v es = true
  | k, v, .nil, hin, _ => absurd hin (by simp [inEntries])
  | k, v, .cons k2 v2 tl, hin, hv => by
    simp only [inEntries] at hin
    simp only [entriesHasMatch]
    cases hin with
    | inl h =>
      obtain ⟨hk, hvv⟩ := h
      subst hk
      subst hvv
      simp [hv]
    | inr h => simp [entriesHasMatch_of_in k v tl h hv]

theorem floatEq_refl (f : FloatV) (h : f.isNaN = false) : floatEq f f = true := by
  cases f with
  | nan => simp [FloatV.isNaN] at h
  | inf b => simp [floatEq]
  | fin q => simp [floatEq]

mutual

theorem deepEqual_refl : ∀ (v : GoVal), deepComparable v = true → deepEqual v v = true
  | .nilV, _ => by simp [deepEqual]
  | .intV _, _ => by simp [deepEqual]
  | .floatV f, h => by
    have hn : f.isNaN = false := by simpa [deepComparable] using h
    simp only [deepEqual]
    exact floatEq_refl f hn
  | .complexV re im, h => by
    have hn : re.isNaN = false ∧ im.isNaN = false := by
      simpa [deepComparable, Bool.and_eq_true] using h
    simp only [deepEqual]
    simp [floatEq_refl re hn.1, floatEq_refl im hn.2]
  | .boolV _, _ => by simp [deepEqual]
  | .stringV _, _ => by simp [deepEqual]
  | .sliceV _ none, _ => by simp [deepEqual]
  | .sliceV _ (some xs), h => by
    simp only [deepEqual]
    simp [deepEqualList_refl xs (by simpa [deepComparable] using h)]
  | .arrayV _ xs, h => by
    simp only [deepEqual]
    simp [deepEqualList_refl xs (by simpa [deepComparable] using h)]
  | .mapV _ _ none, _ => by simp [deepEqual]
  | .mapV _ _ (some es), h => by
    simp only [deepEqual]
    simp [entriesSubset_super es es (by simpa [deepComparable] using h) (fun _ _ hv => hv)]
  | .ptrV _ none, _ => by simp [deepEqual]
  | .ptrV _ (some v), h => by
    simp only [deepEqual]
    simp [deepEqual_refl v (by simpa [deepComparable] using h)]
  | .funcV _ n, h => by
    have hn : n = true := by simpa [deepComparable] using h
    subst hn
    simp [deepEqual]
  | .chanV _ _, _ => by simp [deepEqual]
  | .structV _ fs, h => by
    simp only [deepEqual]
    simp [deepEqualEntries_refl fs (by simpa [deepComparable] using h)]
termination_by v _ => (sizeOf v, 0)

theorem deepEqualList_refl : ∀ (xs : GoValList),
    deepComparableList xs = true → deepEqualList xs xs = true
  | .nil, _ => by simp [deepEqualList]
  | .cons x tl, h => by
    have hh : deepComparable x = true ∧ deepComparableList tl = true := by
      simpa [deepComparableList, Bool.and_eq_true] using h
    simp only [deepEqualList]
    simp [deepEqual_refl x hh.1, deepEqualList_refl tl hh.2]
termination_by xs _ => (sizeOf xs, 0)

theorem deepEqualEntries_refl : ∀ (es : GoEntries),
    deepComparableEntries es = true → deepEqualEntries es es = true
  | .nil, _ => by simp [deepEqualEntries]
  | .cons k v tl, h => by
    have hh : deepComparable v = true ∧ deepComparableEntries tl = true := by
      simpa [deepComparableEntries, Bool.and_eq_true] using h
    simp only [deepEqualEntries]
    simp [deepEqual_refl v hh.1, deepEqualEntries_refl tl hh.2]
termination_by es _ => (sizeOf es, 0)

theorem entriesSubset_super : ∀ (es1 es2 : GoEntries), deepComparableEntries es1 = true →
    (∀ k v, inEntries k v es1 → inEntries k v es2) → entriesSubset es1 es2 = true
  | .nil, _, _, _ => by simp [entriesSubset]
  | .cons k v tl, es2, h, hsub => by
    have hh : deepComparable v = true ∧ deepComparableEntries tl = true := by
      simpa [deepComparableEntries, Bool.and_eq_true] using h
    have hin : inEntries k v (.cons k v tl) := by
      simp [inEntries]
    have hm : entriesHasMatch k v es2 = true :=
      entriesHasMatch_of_in k v es2 (hsub k v hin) (deepEqual_refl v hh.1)
    have hrest : entriesSubset tl es2 = true :=
      entriesSubset_super tl es2 hh.2 (fun k2 v2 hv => hsub k2 v2 (Or.inr hv))
    simp only [entriesSubset]
    simp [hm, hrest]
termination_by es1 _ _ _ => (sizeOf es1, 0)

end

theorem string_append_assoc (a b c : String) : (a ++ b) ++ c = a ++ (b ++ c) := by
  apply String.ext
  simp [String.data_append, List.append_assoc]

/-- C1: `Error` on the pair (nil, non-nil) — and symmetrically on
(non-nil, nil) — calls `failCompare` twice in one call, because none of
its three `if` blocks returns early: the specific-message report and the
generic mismatch report both reach the sink, refuting the zero-or-one
report invariant at this input. -/
theorem Error_double_report :
    (ErrorRun none (some ⟨1, "boom"⟩)).length = 2
    ∧ (ErrorRun (some ⟨1, "boom"⟩) none).length = 2 := by
  constructor <;> rfl

/-- C2: `failCompare` builds exactly an optional leading `Message:` line
(present when a first non-empty custom message is given), then the
`Expected:` line whose type label is the type of the first positional
argument and whose value is the rendering of the second, then the
`Actual:` line whose type label is the type of the second positional
argument and whose value is the rendering of the first — for every pair
of arguments and every optional message list. -/
theorem failCompare_message_structure (a e : GoVal) (m : List String) :
    failCompare a e m =
      (match m with
       | [] => ""
       | m0 :: _ => if m0 = "" then "" else "\n Message: " ++ m0)
      ++ (("\nExpected: (" ++ typeName a ++ ") " ++ render e ++ "\n")
          ++ ("  Actual: (" ++ typeName e ++ ") " ++ render a ++ "\n")) := by
  unfold failCompare msgProvided
  cases m with
  | nil => simp [string_append_assoc]
  | cons m0 tl =>
    by_cases h : m0 = "" <;> simp [h, string_append_assoc]

/-- C3: `Len` on `map[string]int{"a":1,"b":2}` with expected length 2
reports nothing, and on `map[string]int{"a":1}` with expected length 2
reports exactly one failure — but its message carries the actual length 1
on the `Expected:` line and the expected length 2 on the `Actual:` line,
because `Len` passes `(expected, v.Len())` into `failCompare`'s
`(actual, expected)` slots. -/
theorem Len_message_swapped :
    LenRun (.mapV "string" "int" (.some (.cons "a" (.intV 1) (.cons "b" (.intV 2) .nil)))) 2 "collection.go:91" = []
    ∧ LenRun (.mapV "string" "int" (.some (.cons "a" (.intV 1) .nil))) 2 "collection.go:91"
      = ["\n Message: unexpected length\nExpected: (int) 1\n  Actual: (int) 2\n"] := by
  constructor
  · rfl
  · simp only [LenRun, goLen, GoEntries.length, lenSupported, failCompare, msgProvided, render, typeName]
    rfl

/-- C4 counterexample: NaN is a value of the comparable type float64,
yet `Equals(NaN, NaN)` reports a failure — `reflect.DeepEqual` compares
floats with IEEE ==, which is irreflexive at NaN — refuting the claimed
reflexivity for every comparable value. -/
theorem Equals_nan_irreflexive :
    EqualsRun (.floatV .nan) (.floatV .nan) [] ≠ [] := by
  simp [EqualsRun, compareRun, isEqual, deepEqual, floatEq]

/-- C4 amended: `Equals(x, x)` never reports a failure for every
comparable value free of NaN floating-point components — non-nil
function values are not comparable, and at NaN the program's equality is
irreflexive — including nested slices, arrays, maps and records, and
every optional message. -/
theorem Equals_refl (x : GoVal) (msg : List String) (h : deepComparable x = true) :
    EqualsRun x x msg = [] := by
  simp [EqualsRun, compareRun, isEqual, deepEqual_refl x h]

theorem Equals_refl_witness :
    deepComparable (.structV "pkg.T"
      (.cons "xs" (.sliceV "int" (.some (.cons (.intV 1) (.cons (.intV 2) .nil))))
        (.cons "m" (.mapV "string" "int" (.some (.cons "a" (.intV 1) .nil))) .nil))) = true
    ∧ EqualsRun
        (.structV "pkg.T"
          (.cons "xs" (.sliceV "int" (.some (.cons (.intV 1) (.cons (.intV 2) .nil))))
            (.cons "m" (.mapV "string" "int" (.some (.cons "a" (.intV 1) .nil))) .nil)))
        (.structV "pkg.T"
          (.cons "xs" (.sliceV "int" (.some (.cons (.intV 1) (.cons (.intV 2) .nil))))
            (.cons "m" (.mapV "string" "int" (.some (.cons "a" (.intV 1) .nil))) .nil)))
        [] = [] :=
  ⟨by simp [deepComparable, deepComparableList, deepComparableEntries],
    Equals_refl _ []
      (by simp [deepComparable, deepComparableList, deepComparableEntries])⟩

/-- C6: the absence predicate `isNil` holds for the literal nil and for
nil pointers, slices, maps, funcs and channels, and fails for every value
of any other kind — in particular zero integers, the empty string,
allocated-but-empty slices and maps, booleans, arrays and records — as
well as for the non-nil forms of the reference kinds. -/
theorem isNil_characterization :
    isNil .nilV = true
    ∧ (∀ t, isNil (.ptrV t none) = true)
    ∧ (∀ t, isNil (.sliceV t none) = true)
    ∧ (∀ kt vt, isNil (.mapV kt vt none) = true)
    ∧ (∀ t, isNil (.funcV t true) = true)
    ∧ (∀ t, isNil (.chanV t true) = true)
    ∧ (∀ n, isNil (.intV n) = false)
    ∧ (∀ b, isNil (.boolV b) = false)
    ∧ (∀ s, isNil (.stringV s) = false)
    ∧ (∀ t v, isNil (.ptrV t (.some v)) = false)
    ∧ (∀ t xs, isNil (.sliceV t (.some xs)) = false)
    ∧ (∀ kt vt es, isNil (.mapV kt vt (.some es)) = false)
    ∧ (∀ t, isNil (.funcV t false) = false)
    ∧ (∀ t, isNil (.chanV t false) = false)
    ∧ (∀ t xs, isNil (.arrayV t xs) = false)
    ∧ (∀ n fs, isNil (.structV n fs) = false)
    ∧ (∀ f, isNil (.floatV f) = false)
    ∧ (∀ re im, isNil (.complexV re im) = false) :=
  ⟨rfl, fun _ => rfl, fun _ => rfl, fun _ _ => rfl, fun _ => rfl, fun _ => rfl,
    fun _ => rfl, fun _ => rfl, fun _ => rfl, fun _ _ => rfl, fun _ _ => rfl,
    fun _ _ _ => rfl, fun _ => rfl, fun _ => rfl, fun _ _ => rfl, fun _ _ => rfl,
    fun _ => rfl, fun _ _ => rfl⟩

/-- C7: `Error`'s three-way nil handling: both nil reports nothing;
exactly one nil always reports a failure; two non-nil errors report a
failure exactly when they are not the identical error value — comparison
is by identity, not message text, as the concrete pair of distinct errors
with equal message text shows. -/
theorem Error_nil_handling :
    ErrorRun none none = []
    ∧ (∀ e, ErrorRun none (.some e) ≠ [])
    ∧ (∀ e, ErrorRun (.some e) none ≠ [])
    ∧ (∀ e1 e2, ErrorRun (.some e1) (.some e2) ≠ [] ↔ e1 ≠ e2)
    ∧ ErrorRun (.some ⟨1, "same text"⟩) (.some ⟨2, "same text"⟩) ≠ [] := by
  refine ⟨rfl, fun e => ?_, fun e => ?_, fun e1 e2 => ?_, ?_⟩
  · simp [ErrorRun]
  · simp [ErrorRun]
  · by_cases h : e1 = e2 <;> simp [ErrorRun, h]
  · simp [ErrorRun]

theorem mem_if_singleton {c : Prop} [Decidable c] {x r : String}
    (hr : r ∈ (if c then [x] else [])) : r = x := by
  split at hr
  · simpa using hr
  · simp at hr

theorem mem_else_singleton {c : Prop} [Decidable c] {x r : String}
    (hr : r ∈ (if c then [] else [x])) : r = x := by
  split at hr
  · simp at hr
  · simpa using hr

/-- C5 counterexample: `NotNil` on the nil value reports, but its report
is not produced by the shared failure formatter `failCompare` for any
arguments — `NotNil` writes its message to the sink directly. -/
theorem NotNil_not_via_failCompare :
    ¬ (∀ r ∈ NotNilRun .nilV, viaSharedFormatter r) := by
  intro hall
  obtain ⟨x, y, ms, heq⟩ := hall "\nexpected value to not be nil" (by simp [NotNilRun, isNil])
  exact not_failCompare_of_lastChar _ (by decide) x y ms heq.symm

theorem noPanic_lastChar (em : String) :
    lastChar ("\nExpected panic: " ++ em ++ "\n  Actual: no panic") = some 'c' := by
  rw [show "\nExpected panic: " ++ em ++ "\n  Actual: no panic" =
    ("\nExpected panic: " ++ em) ++ "\n  Actual: no panic" from rfl]
  rw [lastChar_append]
  rfl

/-- C5 amended: every assertion failure of every primitive of the call
surface — Equals, NotEquals, True, False, Nil, Between, Greater,
GreaterOrEqual, LessOrEqual, Contains, NotContains, Empty, Len, HasKey,
HasPrefix, HasSuffix, StringContains, MatchRegexp, Error, ErrorIs,
ErrorAs and the panic-message mismatch of Panics — is rendered through
the shared formatter `failCompare`, except the two direct reports:
`NotNil` on a nil value and `Panics` on a function that returns
normally, which write their messages to the host sink directly (usage
errors of `Empty`/`Len` remain outside the claim's scope, being usage
errors rather than assertion failures). -/
theorem shared_formatter_amended :
    (∀ a e m r, r ∈ EqualsRun a e m → viaSharedFormatter r)
    ∧ (∀ ae ee r, r ∈ ErrorRun ae ee → viaSharedFormatter r)
    ∧ (∀ v r, r ∈ NilRun v → viaSharedFormatter r)
    ∧ (∀ b m r, r ∈ TrueRun b m → viaSharedFormatter r)
    ∧ (∀ b m r, r ∈ FalseRun b m → viaSharedFormatter r)
    ∧ (∀ v loc m r, lenSupported v = true → r ∈ EmptyRun v loc m → viaSharedFormatter r)
    ∧ (∀ v n loc r, lenSupported v = true → r ∈ LenRun v n loc → viaSharedFormatter r)
    ∧ (∀ eng s p m r, r ∈ MatchRegexpRun eng s p m → viaSharedFormatter r)
    ∧ (∀ p em r, r ∈ PanicsRun (.some p) em → viaSharedFormatter r)
    ∧ (∀ a e m r, r ∈ NotEqualsRun a e m → viaSharedFormatter r)
    ∧ (∀ ty sl el r, r ∈ ContainsRun ty sl el → viaSharedFormatter r)
    ∧ (∀ ty sl el m r, r ∈ NotContainsRun ty sl el m → viaSharedFormatter r)
    ∧ (∀ kt vt mp k r, r ∈ HasKeyRun kt vt mp k → viaSharedFormatter r)
    ∧ (∀ s p m r, r ∈ HasPrefixRun s p m → viaSharedFormatter r)
    ∧ (∀ s suf m r, r ∈ HasSuffixRun s suf m → viaSharedFormatter r)
    ∧ (∀ s sub r, r ∈ StringContainsRun s sub → viaSharedFormatter r)
    ∧ (∀ (A : Type) (inst : LinearOrder A) (goOf : A → GoVal) (sp : A → String)
        (a mn mx : A) r, r ∈ @BetweenRun A inst goOf sp a mn mx → viaSharedFormatter r)
    ∧ (∀ (A : Type) (inst : LinearOrder A) (goOf : A → GoVal) (sp : A → String)
        (a mn : A) r, r ∈ @GreaterRun A inst goOf sp a mn → viaSharedFormatter r)
    ∧ (∀ (A : Type) (inst : LinearOrder A) (goOf : A → GoVal) (sp : A → String)
        (a mn : A) m r, r ∈ @GreaterOrEqualRun A inst goOf sp a mn m → viaSharedFormatter r)
    ∧ (∀ (A : Type) (inst : LinearOrder A) (goOf : A → GoVal) (sp : A → String)
        (a mx : A) m r, r ∈ @LessOrEqualRun A inst goOf sp a mx m → viaSharedFormatter r)
    ∧ (∀ ei err tgt m r, r ∈ ErrorIsRun ei err tgt m → viaSharedFormatter r)
    ∧ (∀ ea err ty m r, r ∈ ErrorAsRun ea err ty m → viaSharedFormatter r)
    ∧ (∀ v r, r ∈ NotNilRun v →
        r = "\nexpected value to not be nil" ∧ ¬ viaSharedFormatter r)
    ∧ (∀ em r, r ∈ PanicsRun none em →
        r = "\nExpected panic: " ++ em ++ "\n  Actual: no panic" ∧ ¬ viaSharedFormatter r) := by
  refine ⟨?_, ?_, ?_, ?_, ?_, ?_, ?_, ?_, ?_, ?_, ?_, ?_, ?_, ?_, ?_, ?_, ?_, ?_, ?_, ?_, ?_, ?_, ?_, ?_⟩
  · intro a e m r hr
    simp only [EqualsRun, compareRun] at hr
    exact ⟨_, _, _, mem_if_singleton hr⟩
  · intro ae ee r hr
    simp only [ErrorRun, List.mem_append] at hr
    rcases hr with (hr | hr) | hr
    · exact ⟨_, _, _, mem_if_singleton hr⟩
    · exact ⟨_, _, _, mem_if_singleton hr⟩
    · exact ⟨_, _, _, mem_if_singleton hr⟩
  · intro v r hr
    simp only [NilRun] at hr
    exact ⟨_, _, _, mem_if_singleton hr⟩
  · intro b m r hr
    simp only [TrueRun] at hr
    exact ⟨_, _, _, mem_if_singleton hr⟩
  · intro b m r hr
    simp only [FalseRun] at hr
    exact ⟨_, _, _, mem_if_singleton hr⟩
  · intro v loc m r hsupp hr
    simp only [EmptyRun, hsupp, if_true] at hr
    exact ⟨_, _, _, mem_if_singleton hr⟩
  · intro v n loc r hsupp hr
    simp only [LenRun, hsupp, if_true] at hr
    exact ⟨_, _, _, mem_if_singleton hr⟩
  · intro eng s p m r hr
    cases h : eng.compileErr p with
    | some err =>
      simp only [MatchRegexpRun, matchString, h] at hr
      simp only [List.mem_singleton] at hr
      exact ⟨_, _, _, hr⟩
    | none =>
      simp only [MatchRegexpRun, matchString, h] at hr
      exact ⟨_, _, _, mem_if_singleton hr⟩
  · intro p em r hr
    simp only [PanicsRun] at hr
    exact ⟨_, _, _, mem_if_singleton hr⟩
  · intro a e m r hr
    simp only [NotEqualsRun] at hr
    exact ⟨_, _, _, mem_if_singleton hr⟩
  · intro ty sl el r hr
    simp only [ContainsRun] at hr
    exact ⟨_, _, _, mem_else_singleton hr⟩
  · intro ty sl el m r hr
    simp only [NotContainsRun] at hr
    exact ⟨_, _, _, mem_if_singleton hr⟩
  · intro kt vt mp k r hr
    simp only [HasKeyRun] at hr
    exact ⟨_, _, _, mem_else_singleton hr⟩
  · intro s p m r hr
    simp only [HasPrefixRun] at hr
    exact ⟨_, _, _, mem_else_singleton hr⟩
  · intro s suf m r hr
    simp only [HasSuffixRun] at hr
    exact ⟨_, _, _, mem_else_singleton hr⟩
  · intro s sub r hr
    simp only [StringContainsRun] at hr
    exact ⟨_, _, _, mem_else_singleton hr⟩
  · intro A inst goOf sp a mn mx r hr
    simp only [BetweenRun] at hr
    exact ⟨_, _, _, mem_if_singleton hr⟩
  · intro A inst goOf sp a mn r hr
    simp only [GreaterRun] at hr
    exact ⟨_, _, _, mem_if_singleton hr⟩
  · intro A inst goOf sp a mn m r hr
    simp only [GreaterOrEqualRun] at hr
    exact ⟨_, _, _, mem_if_singleton hr⟩
  · intro A inst goOf sp a mx m r hr
    simp only [LessOrEqualRun] at hr
    exact ⟨_, _, _, mem_if_singleton hr⟩
  · intro ei err tgt m r hr
    simp only [ErrorIsRun] at hr
    exact ⟨_, _, _, mem_if_singleton hr⟩
  · intro ea err ty m r hr
    simp only [ErrorAsRun] at hr
    exact ⟨_, _, _, mem_if_singleton hr⟩
  · intro v r hr
    simp only [NotNilRun] at hr
    have hrr := mem_if_singleton hr
    subst hrr
    refine ⟨rfl, ?_⟩
    rintro ⟨x, y, ms, heq⟩
    exact not_failCompare_of_lastChar _ (by decide) x y ms heq.symm
  · intro em r hr
    simp only [PanicsRun, List.mem_singleton] at hr
    subst hr
    refine ⟨rfl, ?_⟩
    rintro ⟨x, y, ms, heq⟩
    refine not_failCompare_of_lastChar _ ?_ x y ms heq.symm
    rw [noPanic_lastChar]
    decide

theorem shared_formatter_amended_witness :
    viaSharedFormatter (failCompare (.intV 42) (.intV 43) []) :=
  shared_formatter_amended.1 (.intV 42) (.intV 43) [] (failCompare (.intV 42) (.intV 43) [])
    (by simp [EqualsRun, compareRun, isEqual, deepEqual])

/-- C8: `Panics` satisfies its contract: a panic payload rendering
exactly to the expected message reports nothing; a function returning
normally always reports the direct "no panic" message, which no
`failCompare`-built report equals (distinguishability); a payload
rendering to anything else reports the message-mismatch failure through
the shared formatter. -/
theorem Panics_contract (em : String) :
    PanicsRun (.some em) em = []
    ∧ (∀ p, p ≠ em → PanicsRun (.some p) em
        = [failCompare (.stringV em) (.stringV p) ["unexpected panic message"]])
    ∧ PanicsRun none em = ["\nExpected panic: " ++ em ++ "\n  Actual: no panic"]
    ∧ (∀ x y ms, failCompare x y ms ≠ "\nExpected panic: " ++ em ++ "\n  Actual: no panic") := by
  refine ⟨?_, ?_, rfl, ?_⟩
  · simp [PanicsRun]
  · intro p hp
    simp [PanicsRun, hp]
  · intro x y ms
    refine not_failCompare_of_lastChar _ ?_ x y ms
    rw [noPanic_lastChar]
    decide

theorem Panics_contract_witness :
    PanicsRun (.some "boom") "boom" = []
    ∧ PanicsRun (.some "bam") "boom"
      = [failCompare (.stringV "boom") (.stringV "bam") ["unexpected panic message"]] :=
  ⟨(Panics_contract "boom").1, (Panics_contract "boom").2.1 "bam" (by decide)⟩

/-- C9: when the pattern fails to compile, `MatchRegexp` reports exactly
the invalid-regexp failure — its report carries "invalid regexp: <err>"
as the leading custom message and does not depend on the subject string —
and never the should-match failure; when the pattern compiles but does
not match, it reports exactly the usual should-match failure. -/
theorem MatchRegexp_invalid_pattern (eng : RegexpEngine) (s pattern : String) (m : List String) :
    (∀ err, eng.compileErr pattern = some err →
      (MatchRegexpRun eng s pattern m
        = [failCompare (.stringV pattern) (.stringV "valid regexp pattern")
            (("invalid regexp: " ++ err) :: m)]
       ∧ ∀ s2, MatchRegexpRun eng s2 pattern m = MatchRegexpRun eng s pattern m))
    ∧ (eng.compileErr pattern = none → eng.matchesP pattern s = false →
      MatchRegexpRun eng s pattern m
        = [failCompare (.stringV s) (.stringV ("should match pattern " ++ goQuote pattern)) m]) := by
  constructor
  · intro err herr
    constructor
    · simp [MatchRegexpRun, matchString, herr]
    · intro s2
      simp [MatchRegexpRun, matchString, herr]
  · intro hok hnm
    simp [MatchRegexpRun, matchString, hok, hnm]

theorem MatchRegexp_invalid_pattern_witness :
    MatchRegexpRun
      ⟨fun p => if p = "[" then some "missing closing ]" else none, fun _ _ => false⟩
      "test" "[" []
      = [failCompare (.stringV "[") (.stringV "valid regexp pattern")
          (("invalid regexp: " ++ "missing closing ]") :: [])] :=
  ((MatchRegexp_invalid_pattern
    ⟨fun p => if p = "[" then some "missing closing ]" else none, fun _ _ => false⟩
    "test" "[" []).1 "missing closing ]" (by simp)).1

/-- C10: `Empty` on a slice, array, map or string evaluates emptiness by
the runtime length exactly — no report when the length is 0, one
`failCompare` report otherwise — and on a value of any other kind always
reports a usage error written directly to the host sink, naming the
unsupported type, and that usage report is not producible by the shared
failure reporter. -/
theorem Empty_kinds (v : GoVal) (loc : String) (m : List String) :
    (lenSupported v = true → goLen v = 0 → EmptyRun v loc m = [])
    ∧ (lenSupported v = true → goLen v ≠ 0 →
      EmptyRun v loc m = [failCompare (.stringV "empty colleciton")
        (.stringV ("collection with length " ++ toString (goLen v))) m])
    ∧ (lenSupported v = false →
      EmptyRun v loc m = [usageError loc ("\nEmpty called with unsupported type: " ++ typeName v)]
      ∧ (lastChar (typeName v) ≠ some '\n' →
        ∀ x y ms, failCompare x y ms
          ≠ usageError loc ("\nEmpty called with unsupported type: " ++ typeName v))) := by
  refine ⟨?_, ?_, ?_⟩
  · intro hsupp hlen
    simp [EmptyRun, hsupp, hlen]
  · intro hsupp hlen
    simp [EmptyRun, hsupp, hlen]
  · intro hsupp
    constructor
    · simp [EmptyRun, hsupp]
    · intro hty x y ms
      refine not_failCompare_of_lastChar _ ?_ x y ms
      unfold usageError
      rw [show "\n" ++ loc ++ ("\nEmpty called with unsupported type: " ++ typeName v) =
        ("\n" ++ loc) ++ ("\nEmpty called with unsupported type: " ++ typeName v) from rfl]
      rw [lastChar_append]
      have hne : ("\nEmpty called with unsupported type: " ++ typeName v).data.isEmpty = false := by
        rw [String.data_append]
        simp
      rw [hne, if_neg (by simp)]
      rw [lastChar_append]
      by_cases hemp : (typeName v).data.isEmpty
      · rw [if_pos hemp]
        decide
      · rw [if_neg hemp]
        exact hty

theorem Empty_kinds_witness :
    EmptyRun (.intV 42) "collection.go:44" []
      = [usageError "collection.go:44" ("\nEmpty called with unsupported type: " ++ typeName (.intV 42))]
    ∧ EmptyRun (.mapV "string" "int" (.some .nil)) "collection.go:44" [] = [] :=
  ⟨((Empty_kinds (.intV 42) "collection.go:44" []).2.2 rfl).1,
    (Empty_kinds (.mapV "string" "int" (.some .nil)) "collection.go:44" []).1 rfl rfl⟩

end Assert
